import Mathlib

/-!
Verification development for the Pyxis Field Identity Resolution & Attribute
Merge Engine (backend/app/services/data_entry_service.py and
backend/app/utils/merge_utils.py).

The Python source defines every service function twice in
data_entry_service.py; the later definition shadows the earlier one, so the
effective code is the second copy (the two copies agree on everything the
theorems below talk about, except that the effective process_csv_data tracks
touched identities in a dict keyed by field id and the effective
update_pyxis_field_meta_merge takes an extra, unused field_attrs argument).

Modelling conventions:
* Python scalar values that can reach the merge machinery are modelled by
  PyVal: a Python number (int/float, collapsed into an exact rational), a
  string that float() can parse (numStr), or any other non-null value
  (str s, treated as not convertible to float).  Python float arithmetic is
  modelled by exact rational arithmetic.
* None is modelled by Option.none around PyVal.
* External collaborators (shapely parsing/union/centroid, h3, fuzzywuzzy,
  unit conversion) are oracle parameters: arbitrary functions with the
  right shape, concretised only in closed witnesses/counterexamples.
* CPython set iteration order (used by merge_most_frequent's tie-break) is
  modelled as first-occurrence order; no theorem below depends on ties.
-/

namespace Pyxis

/-- A non-null Python value as seen by the merge utilities. -/
inductive PyVal where
  | num (q : ℚ)
  | numStr (q : ℚ)
  | str (s : String)
  deriving DecidableEq, Repr

/-- float(v) in Python: succeeds on numbers and numeric strings. -/
def PyVal.toNum : PyVal → Option ℚ
  | .num q => some q
  | .numStr q => some q
  | .str _ => none

/-- isinstance(v, (int, float)). -/
def PyVal.isNumber : PyVal → Bool
  | .num _ => true
  | _ => false

/-- Python truthiness of a PyVal (0 and the empty string are falsy). -/
def PyVal.truthy : PyVal → Bool
  | .num q => q ≠ 0
  | .numStr _ => true
  | .str s => s ≠ ""

/-- Python truthiness of an Optional value (None is falsy). -/
def optTruthy : Option PyVal → Bool
  | none => false
  | some v => v.truthy

/-- The convertible-to-float entries of a list, in order: the
`numeric_values` accumulation shared by merge_average and merge_avg_age. -/
def numericValues (vals : List (Option PyVal)) : List ℚ :=
  vals.filterMap (fun v => v.bind PyVal.toNum)

/-- int(q) in Python: truncation toward zero. -/
def pyTrunc (q : ℚ) : ℤ :=
  if 0 ≤ q then ⌊q⌋ else ⌈q⌉

/-- merge_average from merge_utils.py: mean of the convertible entries,
None on an empty list or when no convertible entry remains. -/
def mergeAverage (vals : List (Option PyVal)) : Option ℚ :=
  if vals = [] then none
  else
    let nums := numericValues vals
    if nums = [] then none
    else some (nums.sum / nums.length)

/-- merge_most_frequent from merge_utils.py: drops None entries only and
returns a most frequent remaining value (first occurrence wins ties in this
model), None when nothing remains. -/
def mergeMostFrequent (vals : List (Option PyVal)) : Option PyVal :=
  if vals = [] then none
  else
    let nn := vals.filterMap id
    match nn with
    | [] => none
    | x :: _ => some (nn.foldl (fun best v =>
        if nn.count v > nn.count best then v else best) x)

/-- The valid_pairs accumulation of merge_volume_weighted_average: zip the
two lists and keep the pairs in which both entries are non-null and
float-convertible. -/
def validPairs (values weights : List (Option PyVal)) : List (ℚ × ℚ) :=
  (values.zip weights).filterMap (fun p =>
    match p.1, p.2 with
    | some a, some b =>
      match a.toNum, b.toNum with
      | some x, some y => some (x, y)
      | _, _ => none
    | _, _ => none)

/-- merge_volume_weighted_average from merge_utils.py: returns
sum(v·w)/sum(w) over the valid pairs; None on empty or length-mismatched
inputs, when no valid pair remains, or when the total weight is zero. -/
def mergeVolumeWeighted (values weights : List (Option PyVal)) :
    Option ℚ :=
  if values = [] ∨ weights = [] ∨ values.length ≠ weights.length then none
  else
    let pairs := validPairs values weights
    if pairs = [] then none
    else
      let totalWeight := (pairs.map Prod.snd).sum
      if totalWeight = 0 then none
      else some ((pairs.map (fun p => p.1 * p.2)).sum / totalWeight)

/-- merge_avg_age from merge_utils.py: int(current_year - mean(years)),
None on an empty list or when no convertible entry remains. -/
def mergeAvgAge (currentYear : ℤ) (vals : List (Option PyVal)) :
    Option ℤ :=
  if vals = [] then none
  else
    let nums := numericValues vals
    if nums = [] then none
    else some (pyTrunc ((currentYear : ℚ) - nums.sum / nums.length))

/-- A merge rule entry from OPGEE_cols_merge_rules.json, as read by
process_attribute: rule.get("method"), rule.get("function"),
rule.get("round"). -/
structure MergeRule where
  method : Option String
  function : Option String
  round : Option String
  deriving DecidableEq, Repr

/-- Python truthiness of the optional round_type string. -/
def roundTruthy : Option String → Bool
  | none => false
  | some s => s ≠ ""

/-- apply_rounding from merge_utils.py: int() cast for "int"/"integer",
identity otherwise. -/
def applyRounding (q : ℚ) (roundType : String) : ℚ :=
  if roundType = "int" ∨ roundType = "integer" then (pyTrunc q : ℚ) else q

/-- A PyxisFieldData row as the merge utilities see it: scalar attributes
are reached with getattr by name (hasattr is true for every modelled
column, absent values are None); the geometry column is kept apart because
its values are geometry objects, not scalars.  metaId is the
pyxis_field_meta_id foreign key, entryId the data_entry_id. -/
structure DataRec (G : Type) where
  metaId : ℕ
  entryId : ℕ
  attrs : String → Option PyVal
  geometry : Option G

/-- extract_values_for_attribute from merge_utils.py (scalar columns):
the non-null values of one attribute across the records, in order. -/
def extractValues {G : Type} (records : List (DataRec G))
    (attr : String) : List PyVal :=
  records.filterMap (fun r => r.attrs attr)

/-- process_attribute from merge_utils.py.  The merge-function table
MERGE_FUNCTIONS contains only "average" and "most_frequent"; any other
method falls through to the warn-and-take-first-value branch.  The
"function" key selects the special volume_weighted / avg_age paths, where
volume_weighted re-extracts the non-null oil_prod values as weights and
falls back to merge_average when that list is empty or of a different
length than the value list. -/
def processAttribute {G : Type} (currentYear : ℤ)
    (records : List (DataRec G)) (attr : String) (rule : MergeRule) :
    Option PyVal :=
  let values := extractValues records attr
  if values = [] then none
  else
    let result : Option PyVal :=
      if rule.function = some "volume_weighted" then
        let weights := extractValues records "oil_prod"
        if weights = [] ∨ weights.length ≠ values.length then
          (mergeAverage (values.map some)).map .num
        else
          (mergeVolumeWeighted (values.map some) (weights.map some)).map .num
      else if rule.function = some "avg_age" then
        (mergeAvgAge currentYear (values.map some)).map (fun z => .num z)
      else if rule.method = some "average" then
        (mergeAverage (values.map some)).map .num
      else if rule.method = some "most_frequent" then
        mergeMostFrequent (values.map some)
      else
        values.head?
    match result with
    | none => none
    | some v =>
      if roundTruthy rule.round ∧ v.isNumber then
        match v with
        | .num q => some (.num (applyRounding q (rule.round.getD "")))
        | w => some w
      else some v

/-- H3 cell identifiers are strings. -/
abbrev Cell := String

/-- The external geometry collaborators used by merge_geometry
(shapely wkt/to_shape parsing, unary_union, centroid + h3.geo_to_h3 at
resolution 9, from_shape back to the stored representation).  G is the
stored geometry representation (WKT string / WKBElement), S the parsed
shapely shape.  parse returns none for unparsable, empty or
"None"-sentinel inputs (the except-and-warn path). -/
structure GeoOracle (G S : Type) where
  parse : G → Option S
  unionAll : S → List S → S
  cellOf : S → Cell
  toStored : S → G

/-- merge_geometry from merge_utils.py, applied to the non-null geometry
values of the records: parse each (skipping failures), union the survivors
(a single survivor is passed through unchanged), and return the stored
form of the union together with the H3 cell of its centroid; none when
nothing parses. -/
def mergeGeometry {G S : Type} (o : GeoOracle G S) (geoms : List G) :
    Option (G × Cell) :=
  match geoms with
  | [] => none
  | _ :: _ =>
    match geoms.filterMap o.parse with
    | [] => none
    | [s] => some (o.toStored s, o.cellOf s)
    | s :: rest => some (o.toStored (o.unionAll s rest),
                         o.cellOf (o.unionAll s rest))

/-- The result of merge_specific_attributes(records,
['name', 'country', 'geometry']): a field is none when the corresponding
key is absent from the returned dict. -/
structure MergedVals (G : Type) where
  name : Option PyVal
  country : Option PyVal
  geometry : Option G
  centroidH3 : Option Cell
  deriving Repr

/-- The ruled branch of merge_specific_attributes for one scalar
attribute: process_attribute when the rules table has an entry, otherwise
warn and fall back to merge_most_frequent of the non-null values. -/
def mergeRuled {G : Type} (currentYear : ℤ)
    (rules : String → Option MergeRule) (records : List (DataRec G))
    (attr : String) : Option PyVal :=
  match rules attr with
  | some rule => processAttribute currentYear records attr rule
  | none =>
    let values := extractValues records attr
    if values = [] then none else mergeMostFrequent (values.map some)

/-- merge_specific_attributes(records, ['name', 'country', 'geometry'])
from merge_utils.py.  rules is the read-only table loaded from
OPGEE_cols_merge_rules.json. -/
def mergeSpecificAttributes {G S : Type} (o : GeoOracle G S)
    (currentYear : ℤ) (rules : String → Option MergeRule)
    (records : List (DataRec G)) : MergedVals G :=
  let gpair := mergeGeometry o (records.filterMap (fun r => r.geometry))
  { name := mergeRuled currentYear rules records "name"
    country := mergeRuled currentYear rules records "country"
    geometry := gpair.map Prod.fst
    centroidH3 := gpair.map Prod.snd }

/-- A PyxisFieldMeta row: the canonical field identity.  updatedAt is the
updated_at attribute that update_pyxis_field_meta_merge assigns when (and
only when) a merge actually changed something. -/
structure Meta (G : Type) where
  id : ℕ
  code : String
  name : Option PyVal
  country : Option PyVal
  centroidH3 : Option Cell
  geometry : Option G
  updatedAt : Option ℤ

/-- The slice of database state the engine reads and writes: the
pyxis_field_meta table, the pyxis_field_data table, and the id the next
created identity receives. -/
structure DbState (G : Type) where
  metas : List (Meta G)
  datas : List (DataRec G)
  nextId : ℕ

/-- The attribute dict one CSV row yields (extract_field_attributes
output), split into the identity-forming keys read by
get_or_create_field_meta and the remaining mapped scalar attributes. -/
structure FieldAttrs (G : Type) where
  name : Option PyVal
  country : Option PyVal
  centroidH3 : Option Cell
  geometry : Option G
  other : String → Option PyVal

/-- getattr-by-name view of a FieldAttrs dict, as the created
PyxisFieldData record exposes it to the merge utilities. -/
def FieldAttrs.get {G : Type} (fa : FieldAttrs G) (attr : String) :
    Option PyVal :=
  if attr = "name" then fa.name
  else if attr = "country" then fa.country
  else if attr = "centroid_h3_index" then fa.centroidH3.map .str
  else fa.other attr

/-- create_field_data: a new PyxisFieldData row bound to the given
identity and batch, carrying the row's mapped attributes. -/
def mkDataRec {G : Type} (metaId entryId : ℕ) (fa : FieldAttrs G) :
    DataRec G :=
  { metaId := metaId, entryId := entryId, attrs := fa.get
    geometry := fa.geometry }

/-- find_matching_field from data_entry_service.py, generic over the
numeric type of scores and over the scoring function (the source passes
calculate_match_score).  An absent or falsy name short-circuits to
(None, 0); otherwise the pool (pre-filtered by exact country equality
when the country is truthy) is scanned keeping the strictly best score,
and the best candidate is returned only when its score reaches the
threshold 60. -/
def findMatchingField {G : Type} {α : Type} [LinearOrderedField α]
    (score : Option PyVal → Option PyVal → Option Cell → Option Cell → α)
    (name country : Option PyVal) (idx : Option Cell)
    (pool : List (Meta G)) : Option (Meta G) × α :=
  if ¬ optTruthy name then (none, 0)
  else
    let candidates :=
      if optTruthy country then pool.filter (fun m => m.country = country)
      else pool
    let best := candidates.foldl
      (fun (acc : Option (Meta G) × α) m =>
        let s := score name m.name idx m.centroidH3
        if s > acc.2 then (some m, s) else acc)
      ((none : Option (Meta G)), (0 : α))
    if best.1.isSome ∧ best.2 ≥ 60 then best else (none, best.2)

/-- get_or_create_field_meta from data_entry_service.py: return the
matched identity unchanged, or create a new one carrying the row's name,
country, centroid cell and geometry verbatim (is_new flag in the middle
component). -/
def getOrCreateFieldMeta {G : Type} {α : Type} [LinearOrderedField α]
    (score : Option PyVal → Option PyVal → Option Cell → Option Cell → α)
    (fa : FieldAttrs G) (db : DbState G) :
    Meta G × Bool × DbState G :=
  match (findMatchingField score fa.name fa.country fa.centroidH3
      db.metas).1 with
  | some m => (m, false, db)
  | none =>
    let newMeta : Meta G :=
      { id := db.nextId, code := toString db.nextId, name := fa.name
        country := fa.country, centroidH3 := fa.centroidH3
        geometry := fa.geometry, updatedAt := none }
    (newMeta, true,
      { db with metas := db.metas ++ [newMeta], nextId := db.nextId + 1 })

/-- One iteration of the write-back loop of update_pyxis_field_meta_merge:
a merged value is written only when it is non-null and differs from the
stored value; the Bool reports whether a write happened. -/
def applyUpdate {τ : Type} [DecidableEq τ] (current newVal : Option τ) :
    Option τ × Bool :=
  match newVal with
  | none => (current, false)
  | some v => if some v = current then (current, false) else (some v, true)

/-- The write-back loop of update_pyxis_field_meta_merge: apply the merged
name, country, geometry and centroid-cell values to the identity with
change-detection; when at least one write happened, stamp updatedAt with
now.  Returns the updated identity and the updates_made flag. -/
def writeBack {G : Type} [DecidableEq G] (now : ℤ) (m : Meta G)
    (mv : MergedVals G) : Meta G × Bool :=
  let un := applyUpdate m.name mv.name
  let uc := applyUpdate m.country mv.country
  let ug := applyUpdate m.geometry mv.geometry
  let uh := applyUpdate m.centroidH3 mv.centroidH3
  let changed := un.2 || uc.2 || ug.2 || uh.2
  (if changed then
    { m with name := un.1, country := uc.1, geometry := ug.1
             centroidH3 := uh.1, updatedAt := some now }
  else m, changed)

/-- The merge-and-write-back phase of update_pyxis_field_meta_merge on one
identity and its observation snapshot. -/
def mergedMeta {G S : Type} [DecidableEq G] (o : GeoOracle G S)
    (now currentYear : ℤ) (rules : String → Option MergeRule)
    (m : Meta G) (records : List (DataRec G)) : Meta G × Bool :=
  writeBack now m (mergeSpecificAttributes o currentYear rules records)

/-- db.get(PyxisFieldMeta, field_meta_id). -/
def findMeta {G : Type} (db : DbState G) (i : ℕ) : Option (Meta G) :=
  db.metas.find? (fun m => m.id = i)

/-- update_pyxis_field_meta_merge from data_entry_service.py: look the
identity up, collect its observations, merge name/country/geometry, and
write back only real changes (no write at all when the identity is
missing, has no observations, or nothing changed). -/
def updatePyxisFieldMetaMerge {G S : Type} [DecidableEq G]
    (o : GeoOracle G S) (now currentYear : ℤ)
    (rules : String → Option MergeRule) (db : DbState G) (i : ℕ) :
    DbState G :=
  match findMeta db i with
  | none => db
  | some m =>
    let records := db.datas.filter (fun r => r.metaId = i)
    if records.isEmpty then db
    else
      let res := mergedMeta o now currentYear rules m records
      if res.2 then
        { db with metas := db.metas.map (fun x =>
            if x.id = i then res.1 else x) }
      else db

/-- Insertion into the touched-identity dict of process_csv_data: a dict
keyed by field id keeps first-insertion order and never duplicates a
key. -/
def insertTouched (l : List ℕ) (i : ℕ) : List ℕ :=
  if i ∈ l then l else l ++ [i]

/-- The per-row loop of process_csv_data: extract (already done by the
caller; rows arrive as attribute dicts), match-or-create the identity,
attach a new observation to it, and record the identity as touched. -/
def processRows {G : Type} {α : Type} [LinearOrderedField α]
    (score : Option PyVal → Option PyVal → Option Cell → Option Cell → α)
    (entryId : ℕ) (rows : List (FieldAttrs G)) (db : DbState G)
    (touched : List ℕ) : DbState G × List ℕ :=
  match rows with
  | [] => (db, touched)
  | fa :: rest =>
    let r := getOrCreateFieldMeta score fa db
    let db2 := { r.2.2 with
      datas := r.2.2.datas ++ [mkDataRec r.1.id entryId fa] }
    processRows score entryId rest db2 (insertTouched touched r.1.id)

/-- process_csv_data from data_entry_service.py (effective second
definition): run every row, then run update_pyxis_field_meta_merge once
for each key of the touched dict, in insertion order.  The second
component is the list of merge invocations, one entry per call, in
order. -/
def processCsvData {G S : Type} {α : Type} [DecidableEq G]
    [LinearOrderedField α] (o : GeoOracle G S) (now currentYear : ℤ)
    (rules : String → Option MergeRule)
    (score : Option PyVal → Option PyVal → Option Cell → Option Cell → α)
    (entryId : ℕ) (rows : List (FieldAttrs G)) (db : DbState G) :
    DbState G × List ℕ :=
  let pr := processRows score entryId rows db []
  (pr.2.foldl
    (fun d i => updatePyxisFieldMetaMerge o now currentYear rules d i)
    pr.1, pr.2)

/-- The geo sub-score branch of calculate_match_score, kept symbolic:
gaussian d is the d < 50 branch, penalty the −40 branch (distance ≥ 50 or
h3_distance raising), neutral the branch taken when index1 or index2 is
None. -/
inductive GeoScore where
  | gaussian (d : ℕ)
  | penalty
  | neutral
  deriving DecidableEq, Repr

/-- The numeric value calculate_match_score assigns to each geo sub-score
branch: 100·exp(−0.5·(d·0.1)²) for the gaussian branch, −40 for the
penalty branch, 0 for the neutral branch. -/
def GeoScore.valIs : GeoScore → ℝ → Prop
  | .gaussian d, x => x = 100 * Real.exp (-(1 / 2) * ((d : ℝ) * (1 / 10)) ^ 2)
  | .penalty, x => x = -40
  | .neutral, x => x = 0

/-- The geo sub-score computation of calculate_match_score.  dist is the
external h3.h3_distance collaborator; none models the ValueError raised
when the distance cannot be computed. -/
def geoScore (dist : Cell → Cell → Option ℕ) (index1 index2 : Option Cell) :
    GeoScore :=
  match index1, index2 with
  | some c1, some c2 =>
    match dist c1 c2 with
    | some d => if d < 50 then .gaussian d else .penalty
    | none => .penalty
  | _, _ => .neutral

/-- One column mapping from the upload configuration. -/
structure Mapping where
  sourceAttribute : String
  targetAttribute : String

/-- The running field_attrs dict of extract_field_attributes, as an
insertion-ordered association list: assignment overwrites in place. -/
def setAttr (l : List (String × PyVal)) (k : String) (v : PyVal) :
    List (String × PyVal) :=
  if l.any (fun p => p.1 = k) then
    l.map (fun p => if p.1 = k then (k, v) else p)
  else l ++ [(k, v)]

/-- extract_field_attributes from data_entry_service.py, without the
trailing lat/lon-to-H3 fallback step (which only fills a missing
centroid_h3_index key and is not touched by any claim): for each mapping whose
source column is present and non-NaN in the row and has attribute info in
the config, store the converted value, or — when convert_value raises
(conv returns none) — log a diagnostic and store the raw source value.
Returns the attribute dict and the diagnostics, in order.  extractStep
is the per-mapping loop body. -/
def extractStep (conv : PyVal → String → String → Option PyVal)
    (row : String → Option PyVal) (srcInfo : String → Bool)
    (acc : List (String × PyVal) × List (String × String))
    (mp : Mapping) :
    List (String × PyVal) × List (String × String) :=
  match row mp.sourceAttribute with
  | none => acc
  | some raw =>
    if srcInfo mp.sourceAttribute then
      match conv raw mp.sourceAttribute mp.targetAttribute with
      | some v => (setAttr acc.1 mp.targetAttribute v, acc.2)
      | none => (setAttr acc.1 mp.targetAttribute raw,
                 acc.2 ++ [(mp.sourceAttribute, mp.targetAttribute)])
    else acc

/-- extract_field_attributes: fold the per-mapping step over the
configured mappings, starting from an empty dict and no diagnostics. -/
def extractFieldAttributes (conv : PyVal → String → String → Option PyVal)
    (row : String → Option PyVal) (srcInfo : String → Bool)
    (mappings : List Mapping) :
    List (String × PyVal) × List (String × String) :=
  mappings.foldl (extractStep conv row srcInfo) ([], [])

/-- Dict lookup in the extracted attribute list. -/
def getAttr (l : List (String × PyVal)) (k : String) : Option PyVal :=
  (l.find? (fun p => p.1 = k)).map Prod.snd

/-- The spec's reading of the volume_weighted method (claim C7), written
from the spec's words for comparison with the implementation: weight pairs
are aligned per observation, every pair in which either the value or the
weight is missing (or not numeric) is dropped, and when no valid pair
exists the method falls back to the plain average of the value series. -/
def specVolumeWeightedAligned {G : Type} (records : List (DataRec G))
    (attr wattr : String) : Option ℚ :=
  let pairs := records.filterMap (fun r =>
    match (r.attrs attr).bind PyVal.toNum,
        (r.attrs wattr).bind PyVal.toNum with
    | some v, some w => some (v, w)
    | _, _ => none)
  match pairs with
  | [] => mergeAverage ((extractValues records attr).map some)
  | _ :: _ =>
    let totalWeight := (pairs.map Prod.snd).sum
    if totalWeight = 0 then none
    else some ((pairs.map (fun p => p.1 * p.2)).sum / totalWeight)

/-- The spec's claimed invariant on a canonical identity (claim C8): the
stored centroid cell is derived from the currently stored geometry —
either both are absent, or both are present and the cell is the centroid
cell of the parsed stored geometry. -/
def cellConsistent {G S : Type} (o : GeoOracle G S) (geom : Option G)
    (cell : Option Cell) : Prop :=
  match geom, cell with
  | none, none => True
  | some g, some c => ∃ s, o.parse g = some s ∧ c = o.cellOf s
  | _, _ => False

/-- A concrete observation record carrying one numeric value in column
"x" and nothing else, used by concrete evaluations. -/
def recX (q : ℚ) : DataRec Unit :=
  { metaId := 0, entryId := 0
    attrs := fun a => if a = "x" then some (.num q) else none
    geometry := none }

/-- A concrete observation record carrying a numeric value in column "x"
and an optional numeric oil_prod weight, used by concrete evaluations. -/
def recXW (q : ℚ) (w : Option ℚ) : DataRec Unit :=
  { metaId := 0, entryId := 0
    attrs := fun a =>
      if a = "x" then some (.num q)
      else if a = "oil_prod" then w.map .num
      else none
    geometry := none }

/-- C6 counterexample: merge_avg_age on reference years [2000, 2010] with
current year 2024 returns the age 19, not 2019 as the claim states. -/
theorem c6_counterexample :
    mergeAvgAge 2024 [some (.num 2000), some (.num 2010)] = some 19 ∧
    (19 : ℤ) ≠ 2019 := by
  constructor
  · simp [mergeAvgAge, numericValues, PyVal.toNum, pyTrunc]
    norm_num
  · decide

/-- C6 amended: merge_avg_age returns int(current_year − mean(values)) —
the difference truncated toward zero — whenever a convertible value
exists; in particular for [2000, 2010] with current year 2024 it returns
the age 19. -/
theorem c6_amended :
    (∀ (y : ℤ) (vals : List (Option PyVal)), numericValues vals ≠ [] →
      mergeAvgAge y vals =
        some (pyTrunc ((y : ℚ) -
          (numericValues vals).sum / (numericValues vals).length))) ∧
    mergeAvgAge 2024 [some (.num 2000), some (.num 2010)] = some 19 := by
  constructor
  · intro y vals h
    have hv : vals ≠ [] := by
      intro hv
      rw [hv] at h
      simp [numericValues] at h
    simp [mergeAvgAge, hv, h]
  · simp [mergeAvgAge, numericValues, PyVal.toNum, pyTrunc]
    norm_num

/-- C6 witness: the general part of the amended theorem evaluated at the
concrete input [2000, 2010] with current year 2024. -/
theorem c6_amended_witness :
    mergeAvgAge 2024 [some (PyVal.num 2000), some (PyVal.num 2010)] =
      some (pyTrunc ((2024 : ℚ) -
        (numericValues [some (PyVal.num 2000),
          some (PyVal.num 2010)]).sum /
        (numericValues [some (PyVal.num 2000),
          some (PyVal.num 2010)]).length)) :=
  c6_amended.1 2024 _ (by decide)

/-- C3 counterexample: a ruled attribute with method "median" on collected
values [1, 2, 3] yields the first value 1, not the median 2 — the
merge-function table contains only "average" and "most_frequent", so
median (like sum, min, max, first, last) hits the unknown-method
fallback. -/
theorem c3_counterexample :
    processAttribute 2024 [recX 1, recX 2, recX 3] "x"
      ⟨some "median", none, none⟩ = some (.num 1) ∧
    PyVal.num 1 ≠ PyVal.num 2 := by
  constructor
  · decide
  · decide

/-- C3 amended: a ruled attribute whose rule has no special function and
whose method is neither "average" nor "most_frequent" — in particular any
of median, sum, min, max, first, last — is merged by the fallback that
returns the first collected non-null value (which matches the stated
semantics only for the method "first"). -/
theorem c3_amended : ∀ {G : Type} (y : ℤ) (records : List (DataRec G))
    (attr : String) (rule : MergeRule),
    rule.function = none →
    rule.method ≠ some "average" →
    rule.method ≠ some "most_frequent" →
    rule.round = none →
    processAttribute y records attr rule =
      (extractValues records attr).head? := by
  intro G y records attr rule hf ha hm hr
  cases hvals : extractValues records attr with
  | nil => simp [processAttribute, hvals, hf, ha, hm, hr]
  | cons v vs =>
    simp [processAttribute, hvals, hf, ha, hm, hr, roundTruthy]

/-- C3 witness: the amended theorem evaluated on two records and a rule
with method "min". -/
theorem c3_amended_witness :
    processAttribute (G := Unit) 2024 [recX 5, recX 7] "x"
      ⟨some "min", none, none⟩ =
      (extractValues [recX 5, recX 7] "x").head? :=
  c3_amended 2024 _ _ _ rfl (by decide) (by decide) rfl

/-- C10 counterexample: merge_most_frequent does not skip entries that are
not convertible to a number — it returns the non-convertible string "a"
as the most frequent value. -/
theorem c10_counterexample :
    mergeMostFrequent [some (.str "a"), some (.str "a"), some (.num 1)]
      = some (.str "a") ∧ PyVal.toNum (.str "a") = none := by
  exact ⟨by decide, rfl⟩

/-- C10 amended: merge_average, merge_avg_age and the volume-weighted
pairing skip entries that are None or not float-convertible;
merge_most_frequent skips None entries only (it keeps arbitrary values);
each function returns None rather than raising when its input is empty or
no usable entry remains, and the volume-weighted division is guarded so a
zero total weight yields None. -/
theorem c10_amended :
    (∀ (v : Option PyVal) (vals : List (Option PyVal)),
        v.bind PyVal.toNum = none →
        mergeAverage (v :: vals) = mergeAverage vals) ∧
    (∀ (y : ℤ) (v : Option PyVal) (vals : List (Option PyVal)),
        v.bind PyVal.toNum = none →
        mergeAvgAge y (v :: vals) = mergeAvgAge y vals) ∧
    (∀ vals, mergeMostFrequent (none :: vals) = mergeMostFrequent vals) ∧
    (∀ vals, numericValues vals = [] → mergeAverage vals = none) ∧
    (∀ (y : ℤ) vals, numericValues vals = [] →
        mergeAvgAge y vals = none) ∧
    (∀ vals : List (Option PyVal), vals.filterMap id = [] →
        mergeMostFrequent vals = none) ∧
    (∀ values weights,
        ((validPairs values weights).map Prod.snd).sum = 0 →
        mergeVolumeWeighted values weights = none) := by
  refine ⟨?_, ?_, ?_, ?_, ?_, ?_, ?_⟩
  · intro v vals h
    cases vals with
    | nil => simp [mergeAverage, numericValues, h]
    | cons w ws => simp [mergeAverage, numericValues, h]
  · intro y v vals h
    cases vals with
    | nil => simp [mergeAvgAge, numericValues, h]
    | cons w ws => simp [mergeAvgAge, numericValues, h]
  · intro vals
    cases vals with
    | nil => simp [mergeMostFrequent]
    | cons w ws => simp [mergeMostFrequent]
  · intro vals h
    cases vals with
    | nil => simp [mergeAverage]
    | cons w ws => simp [mergeAverage, h]
  · intro y vals h
    cases vals with
    | nil => simp [mergeAvgAge]
    | cons w ws => simp [mergeAvgAge, h]
  · intro vals h
    cases vals with
    | nil => simp [mergeMostFrequent]
    | cons w ws => simp [mergeMostFrequent, h]
  · intro values weights h
    by_cases hc : values = [] ∨ weights = [] ∨
        values.length ≠ weights.length
    · simp [mergeVolumeWeighted, hc]
    · by_cases hp : validPairs values weights = []
      · simp [mergeVolumeWeighted, hc, hp]
      · simp [mergeVolumeWeighted, hc, hp, h]

/-- C10 witness: the amended theorem evaluated on concrete inputs — a
non-convertible entry is dropped from an average, and a zero total weight
yields None. -/
theorem c10_amended_witness :
    mergeAverage [some (PyVal.str "zz"), some (PyVal.num 4)] =
      mergeAverage [some (PyVal.num 4)] ∧
    mergeVolumeWeighted [some (PyVal.num 7)] [some (PyVal.num 0)] =
      none :=
  ⟨c10_amended.1 _ _ rfl,
   c10_amended.2.2.2.2.2.2 _ _ (by simp [validPairs, PyVal.toNum])⟩

/-- C7 counterexample: two observations, the first with value 10 and a
missing oil_prod weight, the second with value 20 and weight 3.  The
claimed per-observation pairing would drop the first pair and return the
weighted average 20; the implementation collects the non-null weights
independently, sees a length mismatch, and falls back to the plain
average 15. -/
theorem c7_counterexample :
    processAttribute 2024 [recXW 10 none, recXW 20 (some 3)] "x"
      ⟨none, some "volume_weighted", none⟩ = some (.num 15) ∧
    specVolumeWeightedAligned [recXW 10 none, recXW 20 (some 3)]
      "x" "oil_prod" = some 20 ∧
    (15 : ℚ) ≠ 20 := by
  refine ⟨?_, ?_, by norm_num⟩
  · simp [processAttribute, extractValues, recXW, mergeAverage,
      numericValues, PyVal.toNum, roundTruthy]
    norm_num
  · simp [specVolumeWeightedAligned, extractValues, recXW, PyVal.toNum]

/-- C7 amended: the volume_weighted method collects the attribute's
non-null values and the non-null oil_prod weights as two independent
lists; when the weight list is empty or of a different length it falls
back to the plain average of the values (so a single missing weight
un-weights the whole attribute); otherwise the two lists are zipped
positionally — not aligned by observation — with pairs failing numeric
conversion dropped, no valid pair or a zero total weight yielding None;
volume_weighted([10,20], [1,3]) = 17.5. -/
theorem c7_amended :
    (∀ {G : Type} (y : ℤ) (records : List (DataRec G)) (attr : String)
      (rule : MergeRule),
      rule.function = some "volume_weighted" → rule.round = none →
      extractValues records attr ≠ [] →
      (extractValues records "oil_prod" = [] ∨
        (extractValues records "oil_prod").length ≠
          (extractValues records attr).length) →
      processAttribute y records attr rule =
        (mergeAverage ((extractValues records attr).map some)).map
          PyVal.num) ∧
    (∀ {G : Type} (y : ℤ) (records : List (DataRec G)) (attr : String)
      (rule : MergeRule),
      rule.function = some "volume_weighted" → rule.round = none →
      extractValues records attr ≠ [] →
      extractValues records "oil_prod" ≠ [] →
      (extractValues records "oil_prod").length =
        (extractValues records attr).length →
      processAttribute y records attr rule =
        (mergeVolumeWeighted ((extractValues records attr).map some)
          ((extractValues records "oil_prod").map some)).map
          PyVal.num) ∧
    mergeVolumeWeighted [some (.num 10), some (.num 20)]
      [some (.num 1), some (.num 3)] = some (35 / 2) := by
  refine ⟨?_, ?_, ?_⟩
  · intro G y records attr rule hf hr hv hw
    cases hm : mergeAverage ((extractValues records attr).map some) with
    | none => simp [processAttribute, hf, hr, hv, hw, hm, roundTruthy]
    | some q => simp [processAttribute, hf, hr, hv, hw, hm, roundTruthy]
  · intro G y records attr rule hf hr hv hw hl
    cases hm : mergeVolumeWeighted
        ((extractValues records attr).map some)
        ((extractValues records "oil_prod").map some) with
    | none => simp [processAttribute, hf, hr, hv, hw, hl, hm, roundTruthy]
    | some q => simp [processAttribute, hf, hr, hv, hw, hl, hm, roundTruthy]
  · simp [mergeVolumeWeighted, validPairs, PyVal.toNum]
    norm_num

/-- C7 witness: the fallback part of the amended theorem evaluated at the
mismatched-weights input. -/
theorem c7_amended_witness :
    processAttribute (G := Unit) 2024 [recXW 10 none, recXW 20 (some 3)]
      "x" ⟨none, some "volume_weighted", none⟩ =
      (mergeAverage ((extractValues [recXW 10 none, recXW 20 (some 3)]
        "x").map some)).map PyVal.num :=
  c7_amended.1 2024 _ _ _ rfl rfl (by decide) (by decide)

/-- C1 counterexample: when exactly one of the two centroid cells is
absent, calculate_match_score takes the both-or-either-None branch and
assigns geo score 0, not the −40 penalty the claim requires. -/
theorem c1_counterexample :
    geoScore (fun _ _ => some 0) (some "a") none = GeoScore.neutral ∧
    GeoScore.valIs .neutral 0 ∧ ¬ GeoScore.valIs .neutral (-40) := by
  refine ⟨rfl, rfl, ?_⟩
  intro h
  simp only [GeoScore.valIs] at h
  norm_num at h

/-- C1 amended: the geo sub-score is 100·exp(−0.5·(d·0.1)²) when both
cells are present and their grid distance d is < 50 (hence exactly 100 at
distance 0); −40 when both cells are present and d ≥ 50 or the distance
cannot be computed; and 0 whenever either cell is absent — in particular
also when both are. -/
theorem c1_amended : ∀ (dist : Cell → Cell → Option ℕ) (c1 c2 : Cell)
    (d : ℕ),
    (dist c1 c2 = some d → d < 50 →
      geoScore dist (some c1) (some c2) = .gaussian d ∧
      GeoScore.valIs (.gaussian d)
        (100 * Real.exp (-(1 / 2) * ((d : ℝ) * (1 / 10)) ^ 2))) ∧
    (dist c1 c2 = some d → 50 ≤ d →
      geoScore dist (some c1) (some c2) = .penalty) ∧
    (dist c1 c2 = none → geoScore dist (some c1) (some c2) = .penalty) ∧
    GeoScore.valIs .penalty (-40) ∧
    (∀ i2, geoScore dist none i2 = .neutral) ∧
    (∀ i1, geoScore dist i1 none = .neutral) ∧
    GeoScore.valIs .neutral 0 ∧
    (dist c1 c2 = some 0 →
      GeoScore.valIs (geoScore dist (some c1) (some c2)) 100) := by
  intro dist c1 c2 d
  refine ⟨?_, ?_, ?_, rfl, ?_, ?_, rfl, ?_⟩
  · intro h hd
    exact ⟨by simp [geoScore, h, hd], rfl⟩
  · intro h hd
    simp [geoScore, h, Nat.not_lt.mpr hd]
  · intro h
    simp [geoScore, h]
  · intro i2
    rfl
  · intro i1
    cases i1 <;> rfl
  · intro h
    have hg : geoScore dist (some c1) (some c2) = .gaussian 0 := by
      simp [geoScore, h]
    rw [hg]
    show (100 : ℝ) = _
    norm_num [Real.exp_zero]

/-- C1 witness: the amended theorem evaluated at a distance oracle that
returns 0: both branches of the gaussian case at distance 0. -/
theorem c1_amended_witness :
    geoScore (fun _ _ => some 0) (some "a") (some "b")
      = GeoScore.gaussian 0 ∧
    GeoScore.valIs (geoScore (fun _ _ => some 0) (some "a") (some "b"))
      100 :=
  ⟨((c1_amended (fun _ _ => some 0) "a" "b" 0).1 rfl (by decide)).1,
   (c1_amended (fun _ _ => some 0) "a" "b" 0).2.2.2.2.2.2.2 rfl⟩

/-- C9: an observation with an absent name short-circuits
find_matching_field to (None, 0) regardless of its country, centroid cell
and the candidate pool, so get_or_create_field_meta always creates a new
identity (is_new = true) and appends it to the registry. -/
theorem c9_no_name_new_identity :
    (∀ {G α : Type} [LinearOrderedField α]
      (score : Option PyVal → Option PyVal → Option Cell → Option Cell → α)
      (country : Option PyVal) (idx : Option Cell) (pool : List (Meta G)),
      findMatchingField score none country idx pool = (none, 0)) ∧
    (∀ {G α : Type} [LinearOrderedField α]
      (score : Option PyVal → Option PyVal → Option Cell → Option Cell → α)
      (country : Option PyVal) (idx : Option Cell) (geom : Option G)
      (other : String → Option PyVal) (db : DbState G),
      (getOrCreateFieldMeta score ⟨none, country, idx, geom, other⟩
        db).2.1 = true ∧
      (getOrCreateFieldMeta score ⟨none, country, idx, geom, other⟩
          db).2.2.metas =
        db.metas ++ [(getOrCreateFieldMeta score
          ⟨none, country, idx, geom, other⟩ db).1]) := by
  constructor
  · intro G α _ score country idx pool
    rfl
  · intro G α _ score country idx geom other db
    exact ⟨rfl, rfl⟩

/-- Dict assignment followed by lookup of the same key returns the
assigned value. -/
theorem getAttr_setAttr (l : List (String × PyVal)) (k : String)
    (v : PyVal) : getAttr (setAttr l k v) k = some v := by
  induction l with
  | nil => simp [setAttr, getAttr]
  | cons p rest ih =>
    by_cases hp : p.1 = k
    · simp [setAttr, getAttr, hp]
    · have hstep : setAttr (p :: rest) k v = p :: setAttr rest k v := by
        cases ha : rest.any (fun q => q.1 = k) with
        | true => simp [setAttr, hp, ha]
        | false => simp [setAttr, hp, ha]
      rw [hstep]
      simpa [getAttr, List.find?_cons, hp] using ih

/-- C4 counterexample: a mapping "a" → "x" whose conversion fails does not
skip the attribute — the raw source value is stored under "x" (and the
failure is recorded as a diagnostic). -/
theorem c4_counterexample :
    getAttr (extractFieldAttributes (fun _ _ _ => none)
      (fun s => if s = "a" then some (.str "bad") else none)
      (fun _ => true) [⟨"a", "x"⟩]).1 "x" = some (PyVal.str "bad") ∧
    (extractFieldAttributes (fun _ _ _ => none)
      (fun s => if s = "a" then some (.str "bad") else none)
      (fun _ => true) [⟨"a", "x"⟩]).2 = [("a", "x")] := by
  constructor <;> rfl

/-- C4 amended: when converting a mapped attribute fails, the failure is
recorded as a diagnostic and the raw, unconverted source value is stored
for that attribute (the attribute is not skipped); the row and the batch
continue (extraction is total). -/
theorem c4_amended :
    ∀ (conv : PyVal → String → String → Option PyVal)
      (row : String → Option PyVal) (srcInfo : String → Bool)
      (pre : List Mapping) (s t : String) (raw : PyVal),
      row s = some raw → srcInfo s = true → conv raw s t = none →
      getAttr (extractFieldAttributes conv row srcInfo
        (pre ++ [⟨s, t⟩])).1 t = some raw ∧
      (extractFieldAttributes conv row srcInfo (pre ++ [⟨s, t⟩])).2 =
        (extractFieldAttributes conv row srcInfo pre).2 ++ [(s, t)] := by
  intro conv row si pre s t raw hrow hsi hconv
  have hstep : extractFieldAttributes conv row si (pre ++ [⟨s, t⟩]) =
      (setAttr (extractFieldAttributes conv row si pre).1 t raw,
       (extractFieldAttributes conv row si pre).2 ++ [(s, t)]) := by
    unfold extractFieldAttributes
    rw [List.foldl_append]
    simp [extractStep, hrow, hsi, hconv]
  rw [hstep]
  exact ⟨getAttr_setAttr _ _ _, rfl⟩

/-- C4 witness: the amended theorem evaluated at a one-mapping
configuration whose conversion always fails. -/
theorem c4_amended_witness :
    getAttr (extractFieldAttributes (fun _ _ _ => none)
      (fun s => if s = "b" then some (.num 3) else none)
      (fun _ => true) ([] ++ [⟨"b", "y"⟩])).1 "y" =
      some (PyVal.num 3) ∧
    (extractFieldAttributes (fun _ _ _ => none)
      (fun s => if s = "b" then some (.num 3) else none)
      (fun _ => true) ([] ++ [⟨"b", "y"⟩])).2 =
      (extractFieldAttributes (fun _ _ _ => none)
        (fun s => if s = "b" then some (.num 3) else none)
        (fun _ => true) []).2 ++ [("b", "y")] :=
  c4_amended _ _ _ [] "b" "y" (PyVal.num 3) rfl rfl rfl

/-- A change-detection step that reports no write leaves the stored value
untouched. -/
theorem applyUpdate_snd_false {τ : Type} [DecidableEq τ]
    {c n : Option τ} (h : (applyUpdate c n).2 = false) :
    (applyUpdate c n).1 = c := by
  cases n with
  | none => rfl
  | some v =>
    unfold applyUpdate at *
    by_cases hv : some v = c
    · simp [hv]
    · simp [hv] at h

/-- A change-detection step with a non-null merged value always leaves
that value stored (either it was already there or it gets written). -/
theorem applyUpdate_fst_some {τ : Type} [DecidableEq τ] (c : Option τ)
    (v : τ) : (applyUpdate c (some v)).1 = some v := by
  unfold applyUpdate
  by_cases hv : some v = c
  · simp [hv]
  · simp [hv]

/-- Re-applying a change-detection step to its own output writes
nothing. -/
theorem applyUpdate_again {τ : Type} [DecidableEq τ] (c n : Option τ) :
    applyUpdate (applyUpdate c n).1 n = ((applyUpdate c n).1, false) := by
  cases n with
  | none => rfl
  | some v =>
    rw [applyUpdate_fst_some]
    unfold applyUpdate
    simp

/-- After a write-back, each of the four merged fields holds the value the
change-detection step selected for it. -/
theorem writeBack_fst {G : Type} [DecidableEq G] (now : ℤ) (m : Meta G)
    (mv : MergedVals G) :
    (writeBack now m mv).1.name = (applyUpdate m.name mv.name).1 ∧
    (writeBack now m mv).1.country =
      (applyUpdate m.country mv.country).1 ∧
    (writeBack now m mv).1.geometry =
      (applyUpdate m.geometry mv.geometry).1 ∧
    (writeBack now m mv).1.centroidH3 =
      (applyUpdate m.centroidH3 mv.centroidH3).1 := by
  by_cases hch : ((applyUpdate m.name mv.name).2 ||
      (applyUpdate m.country mv.country).2 ||
      (applyUpdate m.geometry mv.geometry).2 ||
      (applyUpdate m.centroidH3 mv.centroidH3).2) = true
  · simp [writeBack, hch]
  · simp only [Bool.or_eq_true, not_or, Bool.not_eq_true] at hch
    obtain ⟨⟨⟨h1, h2⟩, h3⟩, h4⟩ := hch
    simp [writeBack, h1, h2, h3, h4,
      applyUpdate_snd_false h1, applyUpdate_snd_false h2,
      applyUpdate_snd_false h3, applyUpdate_snd_false h4]

/-- Re-running the write-back on its own output with the same merged
values writes nothing and keeps the identity unchanged. -/
theorem writeBack_idem {G : Type} [DecidableEq G] (t1 t2 : ℤ)
    (m : Meta G) (mv : MergedVals G) :
    writeBack t2 (writeBack t1 m mv).1 mv =
      ((writeBack t1 m mv).1, false) := by
  obtain ⟨e1, e2, e3, e4⟩ := writeBack_fst t1 m mv
  conv_lhs => rw [writeBack]
  simp [e1, e2, e3, e4, applyUpdate_again]

/-- The write-back never changes the identity's primary key. -/
theorem writeBack_id {G : Type} [DecidableEq G] (now : ℤ) (m : Meta G)
    (mv : MergedVals G) : (writeBack now m mv).1.id = m.id := by
  simp only [writeBack]
  split <;> rfl

/-- The merge pass never changes the identity's primary key. -/
theorem mergedMeta_id {G S : Type} [DecidableEq G] (o : GeoOracle G S)
    (now currentYear : ℤ) (rules : String → Option MergeRule)
    (m : Meta G) (records : List (DataRec G)) :
    (mergedMeta o now currentYear rules m records).1.id = m.id :=
  writeBack_id now m (mergeSpecificAttributes o currentYear rules records)

/-- A successful identity lookup returns a row with the looked-up id. -/
theorem findMeta_eq_id {G : Type} {db : DbState G} {i : ℕ} {m : Meta G}
    (h : findMeta db i = some m) : m.id = i := by
  have hp := List.find?_some h
  simpa using hp

/-- Replacing every row with the looked-up id by a row that keeps that id
makes the lookup return the replacement. -/
theorem find_map_replace {G : Type} (i : ℕ) (m1 : Meta G)
    (h1 : m1.id = i) :
    ∀ (l : List (Meta G)) (m : Meta G),
      l.find? (fun x => x.id = i) = some m →
      (l.map (fun x => if x.id = i then m1 else x)).find?
        (fun x => x.id = i) = some m1 := by
  intro l
  induction l with
  | nil =>
    intro m h
    simp at h
  | cons x xs ih =>
    intro m h
    by_cases hx : x.id = i
    · simp only [List.map_cons, if_pos hx]
      rw [List.find?_cons_of_pos _ (by simp [h1])]
    · simp only [List.map_cons, if_neg hx]
      rw [List.find?_cons_of_neg _ (by simp [hx])]
      rw [List.find?_cons_of_neg _ (by simp [hx])] at h
      exact ih _ h

/-- A second merge pass over a database in which the identity was already
replaced by its merged version is a no-op. -/
theorem update_on_updated {G S : Type} [DecidableEq G] (o : GeoOracle G S)
    (currentYear t2 : ℤ) (rules : String → Option MergeRule)
    (db : DbState G) (i : ℕ) (m m1 : Meta G)
    (hfm : findMeta db i = some m)
    (hre : (db.datas.filter (fun r => r.metaId = i)).isEmpty = false)
    (hid : m1.id = i)
    (hidem : mergedMeta o t2 currentYear rules m1
      (db.datas.filter (fun r => r.metaId = i)) = (m1, false)) :
    updatePyxisFieldMetaMerge o t2 currentYear rules
      { db with metas := db.metas.map (fun x =>
          if x.id = i then m1 else x) } i =
    { db with metas := db.metas.map (fun x =>
        if x.id = i then m1 else x) } := by
  have hfm1 : findMeta { db with metas := db.metas.map (fun x =>
      if x.id = i then m1 else x) } i = some m1 :=
    find_map_replace i m1 hid db.metas m hfm
  simp [updatePyxisFieldMetaMerge, hfm1, hre, hidem]

/-- C5: update_pyxis_field_meta_merge is idempotent when no observation
was added in between: a second run on the same identity (at any later
timestamp t2) leaves the whole database state — every attribute and the
updatedAt stamp included — exactly as the first run left it. -/
theorem c5_merge_idempotent {G S : Type} [DecidableEq G]
    (o : GeoOracle G S) (currentYear t1 t2 : ℤ)
    (rules : String → Option MergeRule) (db : DbState G) (i : ℕ) :
    updatePyxisFieldMetaMerge o t2 currentYear rules
      (updatePyxisFieldMetaMerge o t1 currentYear rules db i) i =
    updatePyxisFieldMetaMerge o t1 currentYear rules db i := by
  cases hfm : findMeta db i with
  | none => simp [updatePyxisFieldMetaMerge, hfm]
  | some m =>
    cases hre : (db.datas.filter (fun r => r.metaId = i)).isEmpty with
    | true => simp [updatePyxisFieldMetaMerge, hfm, hre]
    | false =>
      cases hch : (mergedMeta o t1 currentYear rules m
          (db.datas.filter (fun r => r.metaId = i))).2 with
      | false =>
        have hch2 : (mergedMeta o t2 currentYear rules m
            (db.datas.filter (fun r => r.metaId = i))).2 = false := hch
        have hfirst : updatePyxisFieldMetaMerge o t1 currentYear rules
            db i = db := by
          simp [updatePyxisFieldMetaMerge, hfm, hre, hch]
        rw [hfirst]
        simp [updatePyxisFieldMetaMerge, hfm, hre, hch2]
      | true =>
        have hid : (mergedMeta o t1 currentYear rules m
            (db.datas.filter (fun r => r.metaId = i))).1.id = i := by
          rw [mergedMeta_id]
          exact findMeta_eq_id hfm
        have hidem : mergedMeta o t2 currentYear rules
            (mergedMeta o t1 currentYear rules m
              (db.datas.filter (fun r => r.metaId = i))).1
            (db.datas.filter (fun r => r.metaId = i)) =
            ((mergedMeta o t1 currentYear rules m
              (db.datas.filter (fun r => r.metaId = i))).1, false) :=
          writeBack_idem t1 t2 m _
        have hfirst : updatePyxisFieldMetaMerge o t1 currentYear rules
            db i = { db with metas := db.metas.map (fun x =>
              if x.id = i then (mergedMeta o t1 currentYear rules m
                (db.datas.filter (fun r => r.metaId = i))).1 else x) } := by
          simp [updatePyxisFieldMetaMerge, hfm, hre, hch]
        rw [hfirst]
        exact update_on_updated o currentYear t2 rules db i m _ hfm hre
          hid hidem

/-- Inserting into the touched-identity dict keeps its keys distinct. -/
theorem insertTouched_nodup (l : List ℕ) (i : ℕ) (h : l.Nodup) :
    (insertTouched l i).Nodup := by
  unfold insertTouched
  by_cases hi : i ∈ l
  · simpa [hi]
  · simp [hi, List.nodup_append, h, List.disjoint_singleton]

/-- Membership in the touched-identity dict after an insertion. -/
theorem mem_insertTouched (l : List ℕ) (i j : ℕ) :
    j ∈ insertTouched l i ↔ j ∈ l ∨ j = i := by
  unfold insertTouched
  by_cases hi : i ∈ l
  · simp only [if_pos hi]
    constructor
    · exact Or.inl
    · rintro (h | rfl)
      · exact h
      · exact hi
  · simp [hi]

/-- Matching or creating an identity never touches the observation
table. -/
theorem getOrCreate_datas {G α : Type} [LinearOrderedField α]
    (score : Option PyVal → Option PyVal → Option Cell → Option Cell → α)
    (fa : FieldAttrs G) (db : DbState G) :
    (getOrCreateFieldMeta score fa db).2.2.datas = db.datas := by
  unfold getOrCreateFieldMeta
  cases (findMatchingField score fa.name fa.country fa.centroidH3
    db.metas).1 <;> rfl

/-- The per-row loop appends exactly one observation per row, and the
touched-identity dict stays duplicate-free and holds exactly the starting
keys plus the identities of the appended observations. -/
theorem processRows_invariant {G α : Type} [LinearOrderedField α]
    (score : Option PyVal → Option PyVal → Option Cell → Option Cell → α)
    (e : ℕ) :
    ∀ (rows : List (FieldAttrs G)) (db : DbState G) (t : List ℕ),
      t.Nodup →
      ∃ l : List (DataRec G),
        (processRows score e rows db t).1.datas = db.datas ++ l ∧
        (processRows score e rows db t).2.Nodup ∧
        (∀ i, i ∈ (processRows score e rows db t).2 ↔
          i ∈ t ∨ i ∈ l.map DataRec.metaId) := by
  intro rows
  induction rows with
  | nil =>
    intro db t ht
    exact ⟨[], by simp [processRows], by simpa [processRows],
      by simp [processRows]⟩
  | cons fa rest ih =>
    intro db t ht
    obtain ⟨l, hd, hn, hm⟩ := ih
      { (getOrCreateFieldMeta score fa db).2.2 with
        datas := (getOrCreateFieldMeta score fa db).2.2.datas ++
          [mkDataRec (getOrCreateFieldMeta score fa db).1.id e fa] }
      (insertTouched t (getOrCreateFieldMeta score fa db).1.id)
      (insertTouched_nodup _ _ ht)
    refine ⟨mkDataRec (getOrCreateFieldMeta score fa db).1.id e fa :: l,
      ?_, ?_, ?_⟩
    · show (processRows score e rest _ _).1.datas = _
      rw [hd]
      simp [getOrCreate_datas]
    · exact hn
    · intro i
      show i ∈ (processRows score e rest _ _).2 ↔ _
      rw [hm i, mem_insertTouched]
      simp only [List.map_cons, List.mem_cons, mkDataRec]
      tauto

/-- C2: in a batch, the merge pass runs exactly once per distinct touched
identity: the list of update_pyxis_field_meta_merge invocations (the
second component of processCsvData, one call per element, in order)
contains no duplicate identity, and it contains precisely the identities
to which this batch attached an observation — never one entry per row. -/
theorem c2_merge_once_per_identity {G S α : Type} [DecidableEq G]
    [LinearOrderedField α] (o : GeoOracle G S) (now currentYear : ℤ)
    (rules : String → Option MergeRule)
    (score : Option PyVal → Option PyVal → Option Cell → Option Cell → α)
    (e : ℕ) (rows : List (FieldAttrs G)) (db : DbState G) :
    ((processCsvData o now currentYear rules score e rows db).2).Nodup ∧
    (∀ i,
      i ∈ (processCsvData o now currentYear rules score e rows db).2 ↔
      i ∈ ((processRows score e rows db []).1.datas.drop
        db.datas.length).map DataRec.metaId) := by
  obtain ⟨l, hd, hn, hm⟩ :=
    processRows_invariant score e rows db [] List.nodup_nil
  have h2 : (processCsvData o now currentYear rules score e rows db).2 =
      (processRows score e rows db []).2 := rfl
  constructor
  · rw [h2]
    exact hn
  · intro i
    rw [h2, hm i, hd]
    simp [List.drop_left]

/-- A successful geometry merge always returns the stored form and the
centroid cell of one and the same dissolved shape. -/
theorem mergeGeometry_shape {G S : Type} (o : GeoOracle G S)
    (geoms : List G) (g : G) (c : Cell)
    (h : mergeGeometry o geoms = some (g, c)) :
    ∃ s, g = o.toStored s ∧ c = o.cellOf s := by
  unfold mergeGeometry at h
  cases geoms with
  | nil => simp at h
  | cons x xs =>
    cases hv : (x :: xs).filterMap o.parse with
    | nil =>
      rw [hv] at h
      simp at h
    | cons s rest =>
      cases rest with
      | nil =>
        rw [hv] at h
        simp only [Option.some.injEq, Prod.mk.injEq] at h
        exact ⟨s, h.1.symm, h.2.symm⟩
      | cons s2 r2 =>
        rw [hv] at h
        simp only [Option.some.injEq, Prod.mk.injEq] at h
        exact ⟨o.unionAll s (s2 :: r2), h.1.symm, h.2.symm⟩

/-- The concrete geometry oracle used in closed C8 evaluations: parsing
always succeeds, every shape's centroid cell is "derived", and shapes are
stored as themselves (so parse ∘ toStored = some). -/
def oracleCx : GeoOracle ℕ ℕ :=
  { parse := some, unionAll := fun s _ => s
    cellOf := fun _ => "derived", toStored := id }

/-- A constant scoring function for closed evaluations of the matcher
pipeline. -/
def scoreCx : Option PyVal → Option PyVal → Option Cell → Option Cell →
    ℚ := fun _ _ _ _ => 0

/-- A concrete row whose geometry (cell 5) and centroid cell ("99") are
mutually inconsistent under oracleCx. -/
def faCx : FieldAttrs ℕ :=
  { name := some (.str "Alpha"), country := none
    centroidH3 := some "99", geometry := some 5, other := fun _ => none }

/-- An empty registry. -/
def dbCx : DbState ℕ := { metas := [], datas := [], nextId := 1 }

/-- C8 counterexample: the identity created by the orchestrator for a row
carrying both a geometry and an independently sourced centroid cell is a
reachable canonical state in which the stored cell is not derived from
the stored geometry — creation copies the two fields from the row
independently. -/
theorem c8_counterexample :
    (getOrCreateFieldMeta scoreCx faCx dbCx).2.1 = true ∧
    (getOrCreateFieldMeta scoreCx faCx dbCx).1.geometry = some 5 ∧
    (getOrCreateFieldMeta scoreCx faCx dbCx).1.centroidH3 = some "99" ∧
    ¬ cellConsistent oracleCx
      (getOrCreateFieldMeta scoreCx faCx dbCx).1.geometry
      (getOrCreateFieldMeta scoreCx faCx dbCx).1.centroidH3 := by
  refine ⟨rfl, rfl, rfl, ?_⟩
  intro h
  have h2 : ∃ s, (some 5 : Option ℕ) = some s ∧
      "99" = oracleCx.cellOf s := h
  obtain ⟨s, hs, hc⟩ := h2
  have hc2 : ("99" : String) = "derived" := hc
  exact absurd hc2 (by decide)

/-- C8 amended: geometry and centroid cell are recomputed together from
the same dissolved shape by every merge pass: when the dissolve succeeds
the merged identity stores exactly that pair and the cell is derived from
the stored geometry; when the dissolve fails both fields are left
unchanged.  At creation, however, the two fields are copied independently
from the row's attributes, so the consistency invariant holds after a
successful merge but not at creation. -/
theorem c8_amended : ∀ {G S : Type} [DecidableEq G] (o : GeoOracle G S),
    (∀ s, o.parse (o.toStored s) = some s) →
    ∀ (now currentYear : ℤ) (rules : String → Option MergeRule)
      (m : Meta G) (records : List (DataRec G)),
    (∀ g c,
      mergeGeometry o (records.filterMap (fun r => r.geometry)) =
        some (g, c) →
      (mergedMeta o now currentYear rules m records).1.geometry =
        some g ∧
      (mergedMeta o now currentYear rules m records).1.centroidH3 =
        some c ∧
      cellConsistent o
        (mergedMeta o now currentYear rules m records).1.geometry
        (mergedMeta o now currentYear rules m records).1.centroidH3) ∧
    (mergeGeometry o (records.filterMap (fun r => r.geometry)) = none →
      (mergedMeta o now currentYear rules m records).1.geometry =
        m.geometry ∧
      (mergedMeta o now currentYear rules m records).1.centroidH3 =
        m.centroidH3) := by
  intro G S inst o hrt now currentYear rules m records
  obtain ⟨-, -, e3, e4⟩ :=
    writeBack_fst now m (mergeSpecificAttributes o currentYear rules
      records)
  have hmvg : (mergeSpecificAttributes o currentYear rules
      records).geometry = (mergeGeometry o (records.filterMap
        (fun r => r.geometry))).map Prod.fst := rfl
  have hmvh : (mergeSpecificAttributes o currentYear rules
      records).centroidH3 = (mergeGeometry o (records.filterMap
        (fun r => r.geometry))).map Prod.snd := rfl
  constructor
  · intro g c hmg
    have hg : (mergedMeta o now currentYear rules m records).1.geometry =
        some g := by
      show (writeBack now m (mergeSpecificAttributes o currentYear rules
        records)).1.geometry = some g
      rw [e3, hmvg, hmg]
      exact applyUpdate_fst_some m.geometry g
    have hc : (mergedMeta o now currentYear rules m
        records).1.centroidH3 = some c := by
      show (writeBack now m (mergeSpecificAttributes o currentYear rules
        records)).1.centroidH3 = some c
      rw [e4, hmvh, hmg]
      exact applyUpdate_fst_some m.centroidH3 c
    refine ⟨hg, hc, ?_⟩
    rw [hg, hc]
    obtain ⟨s, hgs, hcs⟩ := mergeGeometry_shape o _ g c hmg
    show ∃ s', o.parse g = some s' ∧ c = o.cellOf s'
    refine ⟨s, ?_, hcs⟩
    rw [hgs]
    exact hrt s
  · intro hmg
    constructor
    · show (writeBack now m (mergeSpecificAttributes o currentYear rules
        records)).1.geometry = m.geometry
      rw [e3, hmvg, hmg]
      rfl
    · show (writeBack now m (mergeSpecificAttributes o currentYear rules
        records)).1.centroidH3 = m.centroidH3
      rw [e4, hmvh, hmg]
      rfl

/-- A concrete observation carrying only a geometry, for closed C8
evaluations. -/
def recG : DataRec ℕ :=
  { metaId := 0, entryId := 0, attrs := fun _ => none
    geometry := some 7 }

/-- A concrete blank identity, for closed C8 evaluations. -/
def metaCx : Meta ℕ :=
  { id := 0, code := "f", name := none, country := none
    centroidH3 := none, geometry := none, updatedAt := none }

/-- C8 witness: the amended theorem evaluated with the concrete oracle on
one observation with geometry 7 — the merged identity stores the
dissolved geometry together with its derived cell, consistently. -/
theorem c8_amended_witness :
    (mergedMeta oracleCx 5 2024 (fun _ => none) metaCx [recG]).1.geometry
      = some 7 ∧
    (mergedMeta oracleCx 5 2024 (fun _ => none) metaCx
      [recG]).1.centroidH3 = some "derived" ∧
    cellConsistent oracleCx
      (mergedMeta oracleCx 5 2024 (fun _ => none) metaCx [recG]).1.geometry
      (mergedMeta oracleCx 5 2024 (fun _ => none) metaCx
        [recG]).1.centroidH3 :=
  (c8_amended oracleCx (fun _ => rfl) 5 2024 (fun _ => none) metaCx
    [recG]).1 7 "derived" rfl

end Pyxis
